import Mathlib

/-!
Verification of the worker's metric-state machine from
`src/app/worker/main.go` (custom-metrics-lab).

Shallow embedding conventions:
* wall-clock instants and durations are `Int` (an abstract tick unit);
* `float64` values are modelled as `Rat`; every concrete value appearing
  in the claims (0, 1, 9, -5, ...) is exactly representable as a binary
  double, so the model is exact on the inputs considered;
* the Prometheus gauge `numJobs` is a separate storage location from the
  `globalState.metricValue` field, exactly as in the Go source, since the
  decay loop writes only the gauge.
-/

namespace CustomMetricsLab

/-- The mutex-protected `globalState` struct of main.go (lines 19-24):
`lastJobTime`, `metricValue`, `metricTimeout`.  The mutex itself is
represented by the atomicity granularity of the operations below. -/
structure GlobalState where
  lastJobTime : Int
  metricValue : Rat
  metricTimeout : Int
  deriving DecidableEq, Repr

/-- The whole observable worker state: the `globalState` struct plus the
Prometheus gauge `numJobs` (main.go lines 27-32), which is a distinct
storage location written by `numJobs.Set`. -/
structure WorkerState where
  st : GlobalState
  gauge : Rat
  deriving DecidableEq, Repr

/-- `updateMetric` (main.go lines 146-152): under the lock it sets
`lastJobTime = time.Now()` and `metricValue = value`; after unlocking it
sets the gauge to `value`. -/
def updateMetric (now : Int) (value : Rat) (w : WorkerState) : WorkerState :=
  { st := { w.st with lastJobTime := now, metricValue := value },
    gauge := value }

/-- One tick of `metricUpdater` (main.go lines 161-171): sample
`lastJobTime` and `metricTimeout` under the read lock, then if
`time.Since(lastJob) > timeout` set the gauge to 0.  The struct fields,
including `metricValue`, are not written. -/
def metricUpdaterTick (now : Int) (w : WorkerState) : WorkerState :=
  if now - w.st.lastJobTime > w.st.metricTimeout then { w with gauge := 0 } else w

/-- `ReadCurrent` of the spec: the externally visible value, i.e. what the
`/metrics` endpoint renders — the Prometheus gauge. -/
def readCurrent (w : WorkerState) : Rat := w.gauge

/-- The worker state at process start (main.go lines 62-66):
`lastJobTime = time.Now()` (taken as instant 0), `metricValue = 0`; the
gauge starts at its zero value. -/
def initWorkerState (timeout : Int) : WorkerState :=
  { st := { lastJobTime := 0, metricValue := 0, metricTimeout := timeout },
    gauge := 0 }

/-! ### Model of the Go standard-library parsing used by the worker -/

/-- ASCII decimal digit test, as `strconv` uses. -/
def isDigitCh (c : Char) : Bool := 48 ≤ c.toNat && c.toNat ≤ 57

/-- Value of a digit string read most-significant first. -/
def digitsVal (cs : List Char) : Nat :=
  cs.foldl (fun a c => 10 * a + (c.toNat - 48)) 0

/-- Mantissa of a Go float literal: `digits [. digits]` with at least one
digit overall.  Returns the value and the unconsumed suffix. -/
def parseMantissa (cs : List Char) : Option (Rat × List Char) :=
  let intPart := cs.takeWhile isDigitCh
  let rest := cs.dropWhile isDigitCh
  match rest with
  | '.' :: rest2 =>
      let fracPart := rest2.takeWhile isDigitCh
      let rest3 := rest2.dropWhile isDigitCh
      if intPart.length + fracPart.length = 0 then none
      else some ((digitsVal intPart : Rat)
                  + (digitsVal fracPart : Rat) / ((10 : Rat) ^ fracPart.length), rest3)
  | _ =>
      if intPart.length = 0 then none
      else some ((digitsVal intPart : Rat), rest)

/-- Model of Go `strconv.ParseFloat(s, 64)` on its decimal fragment:
optional sign, decimal mantissa, optional decimal exponent.  `none` is the
error case (in particular on the empty string, which is what indexing a
missing key of `msg.Attributes` yields in Go).  The hexadecimal, `inf`
and `NaN` forms are outside the inputs this development evaluates, and
rounding to the nearest double is the identity on them. -/
def goParseFloat (s : String) : Option Rat :=
  let cs := s.data
  let signed : Rat × List Char :=
    match cs with
    | '+' :: r => (1, r)
    | '-' :: r => (-1, r)
    | r => (1, r)
  match parseMantissa signed.2 with
  | none => none
  | some (m, rest) =>
      match rest with
      | [] => some (signed.1 * m)
      | 'e' :: r | 'E' :: r =>
          let esigned : Int × List Char :=
            match r with
            | '+' :: rr => (1, rr)
            | '-' :: rr => (-1, rr)
            | rr => (1, rr)
          let eds := esigned.2.takeWhile isDigitCh
          let r3 := esigned.2.dropWhile isDigitCh
          if eds.length = 0 ∨ r3 ≠ [] then none
          else some (signed.1 * m * (10 : Rat) ^ (esigned.1 * (digitsVal eds : Int)))
      | _ => none

/-- Model of Go `strconv.Atoi`: optional sign then one or more decimal
digits; `none` is the error case.  (The int64 range check is omitted; all
inputs considered are tiny.) -/
def goAtoi (s : String) : Option Int :=
  let signed : Int × List Char :=
    match s.data with
    | '+' :: r => (1, r)
    | '-' :: r => (-1, r)
    | r => (1, r)
  if signed.2 ≠ [] ∧ signed.2.all isDigitCh then some (signed.1 * digitsVal signed.2)
  else none

/-- The Receive callback's parse step (main.go lines 104-109): parse the
`numJobs` attribute; on error default to 1 with a warning. -/
def parseJobVal (jobValStr : String) : Rat :=
  (goParseFloat jobValStr).getD 1

/-- `getEnv` (main.go lines 175-180): `os.LookupEnv` with a fallback.
The environment is a partial map from names to strings. -/
def getEnv (env : String → Option String) (key fallback : String) : String :=
  (env key).getD fallback

/-- `jobDurationSec, _ := strconv.Atoi(getEnv("JOB_DURATION_SEC", "90"))`
(main.go line 54): the error is discarded, and Go `Atoi` returns 0
alongside a syntax error. -/
def jobDurationSec (env : String → Option String) : Int :=
  (goAtoi (getEnv env "JOB_DURATION_SEC" "90")).getD 0

/-- `metricTimeoutSec, _ := strconv.Atoi(getEnv("METRIC_TIMEOUT_SEC", "120"))`
(main.go line 57): the error is discarded, and Go `Atoi` returns 0
alongside a syntax error. -/
def metricTimeoutSec (env : String → Option String) : Int :=
  (goAtoi (getEnv env "METRIC_TIMEOUT_SEC" "120")).getD 0

/-! ### Single-writer event model (Ingest / DecayCheck over time) -/

/-- One write event on the metric state: an ingest performed by the
Receive callback, or one decay-check tick. -/
inductive MetricEvent
  | ingest (now : Int) (v : Rat)
  | decay (now : Int)
  deriving DecidableEq, Repr

/-- Effect of one event on the worker state. -/
def metricStep (w : WorkerState) : MetricEvent → WorkerState
  | .ingest now v => updateMetric now v w
  | .decay now => metricUpdaterTick now w

/-- Run a sequence of write events. -/
def runEvents (w : WorkerState) (es : List MetricEvent) : WorkerState :=
  es.foldl metricStep w

/-- Run a sequence of decay ticks only (no ingest in between). -/
def runDecays (w : WorkerState) (ts : List Int) : WorkerState :=
  ts.foldl (fun u t => metricUpdaterTick t u) w

/-! ### Trace model of the Receive loop

`sub.ReceiveSettings.MaxOutstandingMessages = 1` (main.go line 97) makes
the Pub/Sub client deliver messages to the callback one at a time: a new
message is fetched only once the previous one is acknowledged.  The
callback body (main.go lines 100-124) is sequential: parse, ingest,
simulated work, ack. -/

/-- Observable steps of the consumer, indexed by message number. -/
inductive TraceEvent
  | fetchMsg (i : Nat)
  | ingestVal (i : Nat) (v : Rat)
  | doWork (i : Nat)
  | ackMsg (i : Nat)
  deriving DecidableEq, Repr

/-- The callback's per-message event sequence, for message number `i`
carrying `attr` as its `numJobs` attribute (empty string when absent). -/
def onMessage (i : Nat) (attr : String) : List TraceEvent :=
  [.fetchMsg i, .ingestVal i (parseJobVal attr), .doWork i, .ackMsg i]

/-- Trace of the receive loop over a stream of message attributes,
numbering messages from `k`. -/
def receiveTraceFrom : Nat → List String → List TraceEvent
  | _, [] => []
  | k, s :: rest => onMessage k s ++ receiveTraceFrom (k + 1) rest

/-- Trace of the receive loop over a stream of message attributes. -/
def receiveTrace (msgs : List String) : List TraceEvent :=
  receiveTraceFrom 0 msgs

/-- Outstanding-message count update: a fetch makes a message
outstanding, an ack settles it. -/
def outUpd (c : Nat) : TraceEvent → Nat
  | .fetchMsg _ => c + 1
  | .ackMsg _ => c - 1
  | _ => c

/-- `outstandingOK c t` holds when, starting from `c` outstanding
messages, every prefix of `t` keeps the outstanding count at most 1. -/
def outstandingOK : Nat → List TraceEvent → Bool
  | _, [] => true
  | c, e :: rest => (outUpd c e ≤ 1) && outstandingOK (outUpd c e) rest

/-! ### Fine-grained interleaving model for the decay/ingest race

The decay loop body (main.go lines 161-170) is two atomic regions: under
the RLock it samples `lastJobTime` (and the immutable `metricTimeout`)
into locals; after RUnlock it evaluates `time.Since(lastJob) > timeout`
on the *sampled* value and, if stale, writes 0 to the gauge with no lock
held.  `updateMetric` is likewise the locked struct update followed by
the unlocked gauge write. -/

/-- Shared state plus the decay goroutine's local variable `lastJob`
(present between its sample and its conditional write). -/
structure Sys where
  w : WorkerState
  sampledLastJob : Option Int
  deriving DecidableEq, Repr

/-- Atomic actions of the two writers. -/
inductive SysAct
  | decaySample
  | decayWrite (now : Int)
  | ingestLocked (now : Int) (v : Rat)
  | ingestGauge (v : Rat)
  deriving DecidableEq, Repr

/-- Semantics of one atomic action.  `decaySample` is the RLock region of
`metricUpdater`; `decayWrite now` is its unlocked conditional
`numJobs.Set(0)`; `ingestLocked`/`ingestGauge` are the two halves of
`updateMetric`. -/
def sysStep (s : Sys) : SysAct → Sys
  | .decaySample => { s with sampledLastJob := some s.w.st.lastJobTime }
  | .decayWrite now =>
      match s.sampledLastJob with
      | some l =>
          if now - l > s.w.st.metricTimeout then
            { w := { s.w with gauge := 0 }, sampledLastJob := none }
          else
            { s with sampledLastJob := none }
      | none => s
  | .ingestLocked now v =>
      { s with w := { s.w with st := { s.w.st with lastJobTime := now, metricValue := v } } }
  | .ingestGauge v => { s with w := { s.w with gauge := v } }

/-- Run a sequence of atomic actions (one interleaving). -/
def sysRun (s : Sys) (acts : List SysAct) : Sys :=
  acts.foldl sysStep s

/-- Start state for the race scenario: process started at instant 0,
timeout 120, no job yet, decay goroutine idle. -/
def raceInit : Sys :=
  { w := initWorkerState 120, sampledLastJob := none }

/-- The racing interleaving: at instant 200 the decay tick samples the
stale `lastJobTime = 0`; then a message arrives and `updateMetric(9)`
runs to completion (both halves); then the decay tick's unlocked write
executes at instant 201 using its stale sample. -/
def raceActs : List SysAct :=
  [.decaySample, .ingestLocked 200 9, .ingestGauge 9, .decayWrite 201]

/-! ### Cancellation wiring of the receive loop

main.go line 84 passes `ctx := context.Background()` to `sub.Receive`,
and the file installs no signal handler (no `os/signal` import), so the
context given to the receive loop can never be cancelled. -/

/-- Kinds of context the receive loop could be given: the background
context, or one hooked to a cancellation source (e.g. a signal handler).
-/
inductive GoCtx
  | background
  | cancellable
  deriving DecidableEq, Repr

/-- The context main.go actually passes to `sub.Receive` (line 84/100). -/
def mainReceiveCtx : GoCtx := .background

/-- Whether a cancellation request ever reaches the receive loop through
the given context. -/
def ctxObservesCancel : GoCtx → Bool
  | .background => false
  | .cancellable => true

/-- Receive-loop semantics over a message stream: with a cancellable
context, a cancellation request after `cancelAfter` fully processed
messages stops the loop there (the in-flight message is finished, no new
one is fetched); with the background context the request never reaches
the loop and every delivered message is processed. -/
def receiveLoop (ctx : GoCtx) (cancelAfter : Nat) (msgs : List String) : List TraceEvent :=
  if ctxObservesCancel ctx then receiveTrace (msgs.take cancelAfter)
  else receiveTrace msgs

/-- Events whose ingested value (if any) is non-negative. -/
def ingestNonneg : MetricEvent → Prop
  | .ingest _ v => 0 ≤ v
  | .decay _ => True

/-! ### Concrete states used by the witnesses -/

/-- A state whose last ingest (value 9, at instant 0) is about to go stale
under the default 120-unit timeout. -/
def w9 : WorkerState :=
  { st := { lastJobTime := 0, metricValue := 9, metricTimeout := 120 }, gauge := 9 }

/-- The start state with the default 120-unit timeout. -/
def w0 : WorkerState := initWorkerState 120

/-! ### Helper lemmas -/

/-- A decay tick never changes the `globalState` struct: it writes only
the gauge. -/
theorem metricUpdaterTick_st (now : Int) (w : WorkerState) :
    (metricUpdaterTick now w).st = w.st := by
  unfold metricUpdaterTick
  split <;> rfl

/-- A decay tick keeps a zero gauge at zero. -/
theorem metricUpdaterTick_gauge_zero (now : Int) (w : WorkerState) (h : w.gauge = 0) :
    (metricUpdaterTick now w).gauge = 0 := by
  unfold metricUpdaterTick
  split <;> simp [h]

/-- Any sequence of decay ticks keeps a zero gauge at zero. -/
theorem runDecays_gauge_zero (ts : List Int) (w : WorkerState) (h : w.gauge = 0) :
    (runDecays w ts).gauge = 0 := by
  induction ts generalizing w with
  | nil => exact h
  | cons t ts ih =>
      have h2 : (metricUpdaterTick t w).gauge = 0 := metricUpdaterTick_gauge_zero t w h
      simpa [runDecays, List.foldl] using ih (metricUpdaterTick t w) h2

/-- A decay tick whose staleness condition fails is a no-op. -/
theorem metricUpdaterTick_fresh (now : Int) (w : WorkerState)
    (h : now - w.st.lastJobTime ≤ w.st.metricTimeout) :
    metricUpdaterTick now w = w := by
  unfold metricUpdaterTick
  rw [if_neg (by omega)]

/-! ### C1: staleness decay zeroes the exported value and it stays zero -/

/-- C1.  If the last ingest is older than `staleAfter` (strict comparison
`now - lastUpdateTime > staleAfter`), the next decay tick sets the
externally visible current value to 0; it stays 0 under any further decay
ticks (until the next ingest, since these are the only two writers); and a
tick at which `now - lastUpdateTime ≤ staleAfter` — in particular exactly
at the timeout — changes nothing, so the comparison is strict. -/
theorem C1_decay_zeroes (w : WorkerState) (now : Int)
    (h : now - w.st.lastJobTime > w.st.metricTimeout) :
    readCurrent (metricUpdaterTick now w) = 0 ∧
    (∀ ts : List Int, readCurrent (runDecays (metricUpdaterTick now w) ts) = 0) ∧
    (∀ u : WorkerState, ∀ m : Int, m - u.st.lastJobTime ≤ u.st.metricTimeout →
      metricUpdaterTick m u = u) := by
  have hz : (metricUpdaterTick now w).gauge = 0 := by
    unfold metricUpdaterTick
    rw [if_pos h]
  refine ⟨hz, ?_, ?_⟩
  · intro ts
    exact runDecays_gauge_zero ts _ hz
  · intro u m hm
    exact metricUpdaterTick_fresh m u hm

/-- Witness for C1 at a concrete stale state: value 9 ingested at instant
0, timeout 120, decay tick at instant 121, further ticks at 131 and 141. -/
theorem C1_decay_zeroes_witness :
    readCurrent (metricUpdaterTick 121 w9) = 0 ∧
    readCurrent (runDecays (metricUpdaterTick 121 w9) [131, 141]) = 0 := by
  have h : (121 : Int) - w9.st.lastJobTime > w9.st.metricTimeout := by
    simp [w9]
  exact ⟨(C1_decay_zeroes w9 121 h).1, (C1_decay_zeroes w9 121 h).2.1 [131, 141]⟩

/-! ### C4: Ingest sets all three observables and survives a fresh tick -/

/-- C4.  After `Ingest(v)` at instant `t` (any `v ≥ 0`): the struct field
`metricValue` is `v`, `lastJobTime` is `t`, the gauge is `v`, so
`ReadCurrent()` returns exactly `v`; and a decay tick at any `now` with
`now - t ≤ staleAfter` leaves the reading at `v`. -/
theorem C4_ingest_exact (w : WorkerState) (t : Int) (v : Rat) (_hv : 0 ≤ v) :
    (updateMetric t v w).st.metricValue = v ∧
    (updateMetric t v w).st.lastJobTime = t ∧
    (updateMetric t v w).gauge = v ∧
    readCurrent (updateMetric t v w) = v ∧
    (∀ now : Int, now - t ≤ w.st.metricTimeout →
      readCurrent (metricUpdaterTick now (updateMetric t v w)) = v) := by
  refine ⟨rfl, rfl, rfl, rfl, ?_⟩
  intro now hnow
  have hfresh : now - (updateMetric t v w).st.lastJobTime
      ≤ (updateMetric t v w).st.metricTimeout := by
    simpa [updateMetric] using hnow
  rw [metricUpdaterTick_fresh now _ hfresh]
  rfl

/-- Witness for C4: ingest 9 at instant 50 into the start state; a decay
tick at instant 100 (within the 120 timeout) leaves the reading at 9. -/
theorem C4_ingest_exact_witness :
    readCurrent (updateMetric 50 9 w0) = 9 ∧
    readCurrent (metricUpdaterTick 100 (updateMetric 50 9 w0)) = 9 := by
  have h := C4_ingest_exact w0 50 9 (by norm_num)
  exact ⟨h.2.2.2.1, h.2.2.2.2 100 (by simp [w0, initWorkerState])⟩

/-! ### C6: decay never touches the struct; re-zeroing is idempotent -/

/-- C6.  A decay tick never modifies `lastUpdateTime` (indeed it leaves
the whole `globalState` struct, `metricValue` included, unchanged), and
once the gauge already reads 0 a further decay tick is the identity on
the whole state: nothing is re-triggered beyond re-asserting 0 on the
gauge. -/
theorem C6_decay_idempotent (w : WorkerState) (now : Int) :
    (metricUpdaterTick now w).st = w.st ∧
    (w.gauge = 0 → metricUpdaterTick now w = w) := by
  refine ⟨metricUpdaterTick_st now w, ?_⟩
  intro h
  unfold metricUpdaterTick
  split
  · cases w with
    | mk st gauge => simp_all
  · rfl

/-- Witness for C6 at the start state (gauge 0) and a late tick. -/
theorem C6_decay_idempotent_witness :
    (metricUpdaterTick 500 w0).st = w0.st ∧ metricUpdaterTick 500 w0 = w0 :=
  ⟨(C6_decay_idempotent w0 500).1, (C6_decay_idempotent w0 500).2 rfl⟩

/-! ### C10: malformed duration env vars silently become 0 -/

/-- C10.  `strconv.Atoi` errors on `JOB_DURATION_SEC` and
`METRIC_TIMEOUT_SEC` are discarded: a set-but-unparseable variable yields
0, not the defaults; the defaults 90 and 120 apply only when the variable
is unset; and with a zero timeout every decay tick strictly after the
last ingest zeroes the exported value. -/
theorem C10_env_parse_silent (env : String → Option String) :
    (∀ s : String, env "JOB_DURATION_SEC" = some s → goAtoi s = none →
      jobDurationSec env = 0) ∧
    (∀ s : String, env "METRIC_TIMEOUT_SEC" = some s → goAtoi s = none →
      metricTimeoutSec env = 0) ∧
    (env "JOB_DURATION_SEC" = none → jobDurationSec env = 90) ∧
    (env "METRIC_TIMEOUT_SEC" = none → metricTimeoutSec env = 120) ∧
    (∀ w : WorkerState, ∀ now : Int, w.st.metricTimeout = 0 →
      w.st.lastJobTime < now → readCurrent (metricUpdaterTick now w) = 0) := by
  refine ⟨?_, ?_, ?_, ?_, ?_⟩
  · intro s hs hparse
    simp [jobDurationSec, getEnv, hs, hparse]
  · intro s hs hparse
    simp [metricTimeoutSec, getEnv, hs, hparse]
  · intro hs
    simp [jobDurationSec, getEnv, hs]
    rfl
  · intro hs
    simp [metricTimeoutSec, getEnv, hs]
    rfl
  · intro w now h0 hlt
    unfold readCurrent metricUpdaterTick
    rw [if_pos (by omega)]

/-- Witness for C10: an environment where `METRIC_TIMEOUT_SEC` is the
unparseable string `abc` and `JOB_DURATION_SEC` is unset: the timeout
becomes 0 (not 120) and the job duration falls back to 90; with the
resulting zero-timeout state, a decay tick one instant after an ingest
already zeroes the reading. -/
theorem C10_env_parse_silent_witness :
    metricTimeoutSec (fun k => if k = "METRIC_TIMEOUT_SEC" then some "abc" else none) = 0 ∧
    jobDurationSec (fun k => if k = "METRIC_TIMEOUT_SEC" then some "abc" else none) = 90 ∧
    readCurrent (metricUpdaterTick 1 (updateMetric 0 9 (initWorkerState 0))) = 0 := by
  have h := C10_env_parse_silent (fun k => if k = "METRIC_TIMEOUT_SEC" then some "abc" else none)
  refine ⟨h.2.1 "abc" (by simp) (by rfl), h.2.2.1 (by simp), ?_⟩
  exact h.2.2.2.2 (updateMetric 0 9 (initWorkerState 0)) 1 rfl (by norm_num [updateMetric])

/-! ### Trace position lemmas for the receive loop -/

/-- Indexing past a block of four leading events. -/
theorem get_cons4 (a b c d : TraceEvent) (t : List TraceEvent) (m : Nat) :
    (a :: b :: c :: d :: t).get? (m + 4) = t.get? m := rfl

/-- Positions of the four per-message events of message `i` inside the
trace of the receive loop started at message number `k`. -/
theorem receiveTraceFrom_get (msgs : List String) :
    ∀ k i s, msgs.get? i = some s →
      ((receiveTraceFrom k msgs).get? (4 * i) = some (.fetchMsg (k + i)) ∧
       (receiveTraceFrom k msgs).get? (4 * i + 1)
         = some (.ingestVal (k + i) (parseJobVal s)) ∧
       (receiveTraceFrom k msgs).get? (4 * i + 2) = some (.doWork (k + i)) ∧
       (receiveTraceFrom k msgs).get? (4 * i + 3) = some (.ackMsg (k + i))) := by
  induction msgs with
  | nil => intro k i s h; simp at h
  | cons s0 rest ih =>
      intro k i s h
      cases i with
      | zero =>
          have hs : s0 = s := by simpa using h
          subst hs
          exact ⟨rfl, rfl, rfl, rfl⟩
      | succ n =>
          have h2 : rest.get? n = some s := by simpa using h
          have hk : k + (n + 1) = (k + 1) + n := by omega
          have base := ih (k + 1) n s h2
          have e0 : 4 * (n + 1) = 4 * n + 4 := by ring
          have e1 : 4 * (n + 1) + 1 = (4 * n + 1) + 4 := by ring
          have e2 : 4 * (n + 1) + 2 = (4 * n + 2) + 4 := by ring
          have e3 : 4 * (n + 1) + 3 = (4 * n + 3) + 4 := by ring
          have hunfold : receiveTraceFrom k (s0 :: rest)
              = TraceEvent.fetchMsg k :: TraceEvent.ingestVal k (parseJobVal s0)
                :: TraceEvent.doWork k :: TraceEvent.ackMsg k
                :: receiveTraceFrom (k + 1) rest := rfl
          rw [hunfold, hk]
          exact ⟨by rw [e0, get_cons4]; exact base.1,
                 by rw [e1, get_cons4]; exact base.2.1,
                 by rw [e2, get_cons4]; exact base.2.2.1,
                 by rw [e3, get_cons4]; exact base.2.2.2⟩

/-- The outstanding-count check passes over one message block exactly
when it passes over the remainder. -/
theorem outstandingOK_onMessage (k : Nat) (s : String) (t : List TraceEvent) :
    outstandingOK 0 (onMessage k s ++ t) = outstandingOK 0 t := by
  simp [onMessage, outstandingOK, outUpd]

/-- The receive-loop trace keeps at most one message outstanding. -/
theorem outstandingOK_receiveTraceFrom (msgs : List String) :
    ∀ k, outstandingOK 0 (receiveTraceFrom k msgs) = true := by
  induction msgs with
  | nil => intro k; rfl
  | cons s rest ih =>
      intro k
      calc outstandingOK 0 (receiveTraceFrom k (s :: rest))
          = outstandingOK 0 (onMessage k s ++ receiveTraceFrom (k + 1) rest) := rfl
        _ = outstandingOK 0 (receiveTraceFrom (k + 1) rest) :=
            outstandingOK_onMessage k s _
        _ = true := ih (k + 1)

/-! ### C3: at most one outstanding message; ack N before fetch N+1 -/

/-- C3.  Every prefix of the receive-loop trace has at most one
outstanding (fetched-but-unacknowledged) message; and whenever message
`i + 1` exists in the stream, the ack of message `i` sits at trace index
`4 i + 3`, strictly before the fetch of message `i + 1` at index
`4 (i + 1)`. -/
theorem C3_single_outstanding (msgs : List String) :
    outstandingOK 0 (receiveTrace msgs) = true ∧
    (∀ i : Nat, ∀ s s2 : String, msgs.get? i = some s → msgs.get? (i + 1) = some s2 →
      (receiveTrace msgs).get? (4 * i + 3) = some (.ackMsg i) ∧
      (receiveTrace msgs).get? (4 * (i + 1)) = some (.fetchMsg (i + 1)) ∧
      4 * i + 3 < 4 * (i + 1)) := by
  refine ⟨outstandingOK_receiveTraceFrom msgs 0, ?_⟩
  intro i s s2 h h2
  have a1 := (receiveTraceFrom_get msgs 0 i s h).2.2.2
  have a2 := (receiveTraceFrom_get msgs 0 (i + 1) s2 h2).1
  rw [Nat.zero_add] at a1 a2
  exact ⟨a1, a2, by omega⟩

/-- Witness for C3 over the concrete two-message stream `["9", "abc"]`. -/
theorem C3_single_outstanding_witness :
    outstandingOK 0 (receiveTrace ["9", "abc"]) = true ∧
    (receiveTrace ["9", "abc"]).get? 3 = some (.ackMsg 0) ∧
    (receiveTrace ["9", "abc"]).get? 4 = some (.fetchMsg 1) := by
  have h := C3_single_outstanding ["9", "abc"]
  have h2 := h.2 0 "9" "abc" rfl rfl
  exact ⟨h.1, h2.1, h2.2.1⟩

/-! ### C5: per-message order is ingest, then work, then ack -/

/-- C5.  For every consumed message `i` (attribute `s`), the trace places
the ingest of the parsed value at index `4 i + 1`, the simulated work at
`4 i + 2` and the acknowledgment at `4 i + 3`: the ingest strictly
precedes the work, which strictly precedes the ack. -/
theorem C5_per_message_order (msgs : List String) (i : Nat) (s : String)
    (h : msgs.get? i = some s) :
    (receiveTrace msgs).get? (4 * i + 1) = some (.ingestVal i (parseJobVal s)) ∧
    (receiveTrace msgs).get? (4 * i + 2) = some (.doWork i) ∧
    (receiveTrace msgs).get? (4 * i + 3) = some (.ackMsg i) ∧
    4 * i + 1 < 4 * i + 2 ∧ 4 * i + 2 < 4 * i + 3 := by
  have base := receiveTraceFrom_get msgs 0 i s h
  rw [Nat.zero_add] at base
  exact ⟨base.2.1, base.2.2.1, base.2.2.2, by omega, by omega⟩

/-- Witness for C5 at message 0 of the stream `["9", "abc"]`. -/
theorem C5_per_message_order_witness :
    (receiveTrace ["9", "abc"]).get? 1 = some (.ingestVal 0 (parseJobVal "9")) ∧
    (receiveTrace ["9", "abc"]).get? 2 = some (.doWork 0) ∧
    (receiveTrace ["9", "abc"]).get? 3 = some (.ackMsg 0) := by
  have h := C5_per_message_order ["9", "abc"] 0 "9" rfl
  exact ⟨h.1, h.2.1, h.2.2.1⟩

/-! ### C2: parse fallback — the default covers parse failures only -/

/-- C2 as stated is false: the attribute string `-5` is not parseable as
a *non-negative* number, yet the callback does not ingest the default 1 —
`strconv.ParseFloat` accepts the negative sign and the parsed value `-5`
is ingested unchanged. -/
theorem C2_counterexample :
    goParseFloat "-5" = some (-5) ∧
    parseJobVal "-5" = -5 ∧
    parseJobVal "-5" ≠ 1 ∧
    ¬ (0 : Rat) ≤ parseJobVal "-5" := by
  have h : goParseFloat "-5" = some (-5) := by
    simp [goParseFloat, parseMantissa, digitsVal, isDigitCh]
  have hp : parseJobVal "-5" = -5 := by simp [parseJobVal, h]
  refine ⟨h, hp, ?_, ?_⟩
  · rw [hp]; norm_num
  · rw [hp]; norm_num

/-- C2 amended.  For every message whose `numJobs` attribute fails to
parse as a float at all (including the empty string an absent attribute
yields), the callback ingests the default 1, so the state and the gauge
read 1 after the ingest, and the message is still worked and acknowledged
(the condition is never fatal); a parseable negative value, however, is
ingested as-is. -/
theorem C2_default_on_parse_failure (s : String) (h : goParseFloat s = none)
    (i : Nat) (t : Int) (w : WorkerState) :
    parseJobVal s = 1 ∧
    (updateMetric t (parseJobVal s) w).st.metricValue = 1 ∧
    readCurrent (updateMetric t (parseJobVal s) w) = 1 ∧
    onMessage i s = [.fetchMsg i, .ingestVal i 1, .doWork i, .ackMsg i] := by
  have hp : parseJobVal s = 1 := by simp [parseJobVal, h]
  exact ⟨hp, by simp [updateMetric, hp], by simp [readCurrent, updateMetric, hp],
         by simp [onMessage, hp]⟩

/-- Witness for the amended C2 at the unparseable attribute `abc`. -/
theorem C2_default_on_parse_failure_witness :
    parseJobVal "abc" = 1 ∧
    (updateMetric 50 (parseJobVal "abc") w0).st.metricValue = 1 ∧
    readCurrent (updateMetric 50 (parseJobVal "abc") w0) = 1 ∧
    onMessage 0 "abc" = [.fetchMsg 0, .ingestVal 0 1, .doWork 0, .ackMsg 0] := by
  have h : goParseFloat "abc" = none := by
    simp [goParseFloat, parseMantissa, isDigitCh]
  exact C2_default_on_parse_failure "abc" h 0 50 w0

/-! ### C7: no clamping — a negative attribute reaches the state -/

/-- C7 as stated is false: nothing in the worker clamps the parsed value
to `≥ 0`.  Processing a message with attribute `-5` from the start state
leaves `metricValue` (and the gauge) at `-5 < 0`, a reachable state with
a negative current value. -/
theorem C7_counterexample :
    (updateMetric 50 (parseJobVal "-5") (initWorkerState 120)).st.metricValue < 0 ∧
    readCurrent (updateMetric 50 (parseJobVal "-5") (initWorkerState 120)) < 0 := by
  have h : goParseFloat "-5" = some (-5) := by
    simp [goParseFloat, parseMantissa, digitsVal, isDigitCh]
  have hp : parseJobVal "-5" = -5 := by simp [parseJobVal, h]
  constructor
  · show parseJobVal "-5" < 0
    rw [hp]; norm_num
  · show parseJobVal "-5" < 0
    rw [hp]; norm_num

/-- C7 amended.  The code performs no clamping; `currentValue` stays
non-negative exactly as long as every ingested value is non-negative
(which holds whenever each attribute parses to a non-negative value or
fails to parse, since the fallback is 1): from any state with
non-negative `metricValue` and gauge, any run of ingest events with
non-negative values and decay ticks keeps both non-negative. -/
theorem C7_nonneg_if_inputs_nonneg (w : WorkerState) (es : List MetricEvent)
    (hw : 0 ≤ w.st.metricValue) (hg : 0 ≤ w.gauge)
    (hes : ∀ e ∈ es, ingestNonneg e) :
    0 ≤ (runEvents w es).st.metricValue ∧ 0 ≤ (runEvents w es).gauge := by
  induction es generalizing w with
  | nil => exact ⟨hw, hg⟩
  | cons e rest ih =>
      have hstep : 0 ≤ (metricStep w e).st.metricValue ∧ 0 ≤ (metricStep w e).gauge := by
        have hme : ingestNonneg e := hes e (List.mem_cons_self _ _)
        cases e with
        | ingest now v =>
            have hv : 0 ≤ v := hme
            exact ⟨hv, hv⟩
        | decay now =>
            constructor
            · show 0 ≤ (metricUpdaterTick now w).st.metricValue
              rw [metricUpdaterTick_st]
              exact hw
            · show 0 ≤ (metricUpdaterTick now w).gauge
              unfold metricUpdaterTick
              split
              · exact le_refl 0
              · exact hg
      have hrest : ∀ e2 ∈ rest, ingestNonneg e2 := fun e2 he2 =>
        hes e2 (List.mem_cons_of_mem e he2)
      exact ih (metricStep w e) hstep.1 hstep.2 hrest

/-- Witness for the amended C7: from the start state, ingest 9, a stale
decay tick, then ingest 1; both observables stay non-negative. -/
theorem C7_nonneg_if_inputs_nonneg_witness :
    0 ≤ (runEvents w0 [.ingest 5 9, .decay 200, .ingest 300 1]).st.metricValue ∧
    0 ≤ (runEvents w0 [.ingest 5 9, .decay 200, .ingest 300 1]).gauge := by
  refine C7_nonneg_if_inputs_nonneg w0 [.ingest 5 9, .decay 200, .ingest 300 1]
    (le_refl 0) (le_refl 0) ?_
  intro e he
  simp only [List.mem_cons, List.not_mem_nil, or_false] at he
  rcases he with rfl | rfl | rfl
  · show (0 : Rat) ≤ 9
    norm_num
  · trivial
  · show (0 : Rat) ≤ 1
    norm_num

/-! ### C8: the decay write can zero a just-arrived value -/

/-- C8 is the intended invariant, but the code violates it: in the
interleaving `raceActs`, the decay tick samples the stale
`lastJobTime = 0` at instant 200, then `Ingest(9)` completes in full
(struct and gauge both updated, `lastJobTime = 200`), and then the decay
tick's unlocked write — still using its stale sample with
`201 - 0 > 120` — overwrites the gauge with 0.  The externally visible
value is 0 although the struct holds the just-arrived 9. -/
theorem C8_race_zeroes_fresh_value :
    (sysRun raceInit raceActs).w.gauge = 0 ∧
    (sysRun raceInit raceActs).w.st.metricValue = 9 ∧
    (sysRun raceInit raceActs).w.st.lastJobTime = 200 := by
  refine ⟨?_, ?_, ?_⟩ <;> rfl

/-! ### C9: no cancellation ever reaches the receive loop -/

/-- C9 as stated is false: `main` passes `context.Background()` to
`sub.Receive` and installs no signal handler, so no cancellation request
ever reaches the receive loop.  Even with cancellation requested before
any message (`cancelAfter = 0`), the loop as wired still fetches message
1 after message 0 — it neither observes the signal between messages nor
stops fetching new messages. -/
theorem C9_counterexample :
    ctxObservesCancel mainReceiveCtx = false ∧
    receiveLoop mainReceiveCtx 0 ["9", "7"] = receiveTrace ["9", "7"] ∧
    (receiveLoop mainReceiveCtx 0 ["9", "7"]).get? 4 = some (.fetchMsg 1) := by
  exact ⟨rfl, rfl, rfl⟩

/-- C9 amended.  The receive loop runs until the process dies: the
context handed to `sub.Receive` is the background context, it never
observes a cancellation, and the trace is the full message stream
whatever cancellation is requested — the graceful-drain behaviour exists
only for a cancellable context, which main.go never constructs. -/
theorem C9_loop_ignores_cancellation (cancelAfter : Nat) (msgs : List String) :
    ctxObservesCancel mainReceiveCtx = false ∧
    receiveLoop mainReceiveCtx cancelAfter msgs = receiveTrace msgs := by
  exact ⟨rfl, rfl⟩

end CustomMetricsLab
